import Mathlib

/-!
Verification of the grim-repo audit scoring engine (`src/community.ts`),
a shallow embedding of the structure / community-standards analyzers.

Strings are modelled through their character lists; the TypeScript
`toLowerCase` / regex-replace normalizers are per-character operations and
are embedded as `List.map` over `String.data`.  JavaScript `Math.round`
on the non-negative ratio `earned / max * 100` equals
`(200 * earned + max) / (2 * max)` in natural-number division
(round half up; for the fixed registries `max ∈ {42, 46}` and
`100 * earned / max` can never land exactly on a half, so the
floating-point computation agrees with the exact rational one).
-/

/-- Priority levels of a check item (`'required' | 'recommended' | 'optional'`). -/
inductive Priority where
  | required
  | recommended
  | optional
deriving DecidableEq, Repr

/-- `FileCheck` from `types.ts` (the scoring-irrelevant `template` field is
absent on every community registry entry and is omitted). -/
structure FileCheck where
  path : String
  purpose : String
  priority : Priority
deriving DecidableEq, Repr

/-- `DirectoryCheck` from `types.ts`. -/
structure DirectoryCheck where
  path : String
  purpose : String
  priority : Priority
  template : Option String
deriving DecidableEq, Repr

/-- `CommunityStandards` result record from `types.ts`. -/
structure CommunityStandards where
  missingFiles : List FileCheck
  presentFiles : List String
  score : Nat
deriving DecidableEq, Repr

/-- `RepoStructure` result record from `types.ts`. -/
structure RepoStructure where
  missingDirs : List DirectoryCheck
  presentDirs : List String
  score : Nat
deriving DecidableEq, Repr

/-- `getPriorityWeight` (identical in both modules of `community.ts`). -/
def getPriorityWeight : Priority → Nat
  | .required => 10
  | .recommended => 5
  | .optional => 1

/-- The TS `String.prototype.startsWith`. -/
def strStartsWith (s pre : String) : Bool :=
  pre.data.isPrefixOf s.data

/-- The community registry `STANDARD_FILES` (`community.ts` lines 12–58). -/
def STANDARD_FILES : List FileCheck := [
  { path := "LICENSE", purpose := "License terms", priority := .required },
  { path := "LICENSE.txt", purpose := "License terms (alternative)", priority := .required },
  { path := "README.md", purpose := "Project overview", priority := .required },
  { path := "CONTRIBUTING.md", purpose := "Contribution guidelines", priority := .recommended },
  { path := "CODE_OF_CONDUCT.md", purpose := "Community conduct standards", priority := .recommended },
  { path := "SECURITY.md", purpose := "Security policies", priority := .recommended },
  { path := "CHANGELOG.md", purpose := "Version history", priority := .recommended },
  { path := "MAINTAINERS.md", purpose := "Project maintainers", priority := .optional },
  { path := ".well-known/security.txt", purpose := "RFC 9116 security contact", priority := .recommended }
]

/-- `normalizeFilePath`: `path.toLowerCase().replace(/\\/g, '/')`,
per character: lowercase, then backslash becomes forward slash. -/
def normalizeFilePath (path : String) : String :=
  String.mk ((path.data.map Char.toLower).map (fun c => if c == '\\' then '/' else c))

/-- First loop of `calculateCommunityScore` (`community.ts` lines 117–129):
accumulates the `uniqueFiles` set and `maxPoints`, counting every
`LICENSE*` row once.  The loop reads nothing from the function arguments,
so it is a closed value (`uniqueFiles` reversed here as `::` models
`Set.add`; only membership is ever queried). -/
def communityMaxAcc : List String × Nat :=
  STANDARD_FILES.foldl
    (fun (acc : List String × Nat) file =>
      if strStartsWith file.path "LICENSE" then
        if acc.1.contains "LICENSE" then acc
        else ("LICENSE" :: acc.1, acc.2 + getPriorityWeight file.priority)
      else (file.path :: acc.1, acc.2 + getPriorityWeight file.priority))
    ([], 0)

/-- Second loop of `calculateCommunityScore` (`community.ts` lines 131–148):
accumulates `earnedPoints` over the registry against the `present` list. -/
def communityEarnedPoints (present : List String) : Nat :=
  STANDARD_FILES.foldl
    (fun earned file =>
      let normalized := normalizeFilePath file.path
      let isPresent := present.any (fun p => normalizeFilePath p == normalized)
      if isPresent then
        if strStartsWith file.path "LICENSE" then
          let alreadyCounted := present.any
            (fun p => p != file.path && strStartsWith (normalizeFilePath p) "license")
          if alreadyCounted then earned else earned + getPriorityWeight file.priority
        else earned + getPriorityWeight file.priority
      else earned)
    0

set_option linter.unusedVariables false in
/-- `calculateCommunityScore` (`community.ts` lines 110–151); the `missing`
parameter is unused in the source as well. -/
def calculateCommunityScore (missing : List FileCheck) (present : List String) : Nat :=
  let maxPoints := communityMaxAcc.2
  let earnedPoints := communityEarnedPoints present
  if maxPoints > 0 then (200 * earnedPoints + maxPoints) / (2 * maxPoints) else 0

/-- Body of the `for (const file of STANDARD_FILES)` loop of
`analyzeCommunityStandards` (`community.ts` lines 72–89), accumulating
`(missing, present)`; `fileSet` and `hasLicense` are the loop-invariant
values computed before the loop. -/
def communityStep (fileSet : List String) (hasLicense : Bool)
    (acc : List FileCheck × List String) (file : FileCheck) :
    List FileCheck × List String :=
  if file.path == "LICENSE.txt" && hasLicense then acc
  else if file.path == "LICENSE" && fileSet.contains "license.txt" then acc
  else if fileSet.contains (normalizeFilePath file.path) then
    (acc.1, acc.2 ++ [file.path])
  else
    (acc.1 ++ [file], acc.2)

/-- `analyzeCommunityStandards` (`community.ts` lines 63–98).  The input
set is modelled as the normalized list with `contains` membership. -/
def analyzeCommunityStandards (existingFiles : List String) : CommunityStandards :=
  let fileSet := existingFiles.map normalizeFilePath
  let hasLicense := fileSet.contains "license" || fileSet.contains "license.txt"
    || fileSet.contains "license.md"
  let res := STANDARD_FILES.foldl (communityStep fileSet hasLicense) ([], [])
  { missingFiles := res.1
    presentFiles := res.2
    score := calculateCommunityScore res.1 res.2 }

/-- `checkRSRCompliance` (`community.ts` lines 197–219). -/
def checkRSRCompliance (standards : CommunityStandards) : Bool :=
  let presentNormalized := standards.presentFiles.map normalizeFilePath
  let hasReadme := presentNormalized.contains "readme.md"
  let hasLicense := presentNormalized.contains "license"
    || presentNormalized.contains "license.txt"
  let hasSecurity := presentNormalized.contains "security.md"
  let hasContributing := presentNormalized.contains "contributing.md"
  let hasCodeOfConduct := presentNormalized.contains "code_of_conduct.md"
  hasReadme && hasLicense && hasSecurity && hasContributing && hasCodeOfConduct

/-- The structure registry `STANDARD_DIRECTORIES` (`community.ts`
lines 231–276). -/
def STANDARD_DIRECTORIES : List DirectoryCheck := [
  { path := "src/", purpose := "Source code", priority := .required,
    template := some "# Source Code\n\nMain application source code goes here." },
  { path := "tests/", purpose := "Test files", priority := .required,
    template := some "# Tests\n\nTest suites and test utilities go here." },
  { path := "docs/", purpose := "Documentation", priority := .recommended,
    template := some "# Documentation\n\nDetailed documentation, guides, and API references." },
  { path := "examples/", purpose := "Example code", priority := .recommended,
    template := some "# Examples\n\nUsage examples and sample applications." },
  { path := ".gitlab/", purpose := "GitLab CI/CD config", priority := .optional,
    template := none },
  { path := ".github/", purpose := "GitHub-specific config", priority := .optional,
    template := none },
  { path := "scripts/", purpose := "Build and automation scripts", priority := .recommended,
    template := none },
  { path := ".well-known/", purpose := "RFC-compliant metadata", priority := .recommended,
    template := none }
]

/-- `normalizePath`: `path.toLowerCase().replace(/\/+$/, '')` — lowercase,
then strip every trailing slash. -/
def normalizePath (path : String) : String :=
  String.mk (((path.data.map Char.toLower).reverse.dropWhile (fun c => c == '/')).reverse)

/-- The registry loop of `calculateStructureScore` (`community.ts`
lines 325–335), accumulating `(maxPoints, earnedPoints)`. -/
def structureScoreAcc (present : List String) : Nat × Nat :=
  STANDARD_DIRECTORIES.foldl
    (fun (mp : Nat × Nat) dir =>
      let points := getPriorityWeight dir.priority
      let normalized := normalizePath dir.path
      let isPresent := present.any (fun p => normalizePath p == normalized)
      (mp.1 + points, if isPresent then mp.2 + points else mp.2))
    (0, 0)

set_option linter.unusedVariables false in
/-- `calculateStructureScore` (`community.ts` lines 315–338); the source's
dead local `total` is dropped. -/
def calculateStructureScore (missing : List DirectoryCheck) (present : List String) : Nat :=
  let maxPoints := (structureScoreAcc present).1
  let earnedPoints := (structureScoreAcc present).2
  if maxPoints > 0 then (200 * earnedPoints + maxPoints) / (2 * maxPoints) else 0

/-- Body of the registry loop of `analyzeStructure`
(`community.ts` lines 287–294). -/
def structureStep (pathSet : List String)
    (acc : List DirectoryCheck × List String) (dir : DirectoryCheck) :
    List DirectoryCheck × List String :=
  if pathSet.contains (normalizePath dir.path) then
    (acc.1, acc.2 ++ [dir.path])
  else
    (acc.1 ++ [dir], acc.2)

/-- `analyzeStructure` (`community.ts` lines 281–303). -/
def analyzeStructure (existingPaths : List String) : RepoStructure :=
  let pathSet := existingPaths.map normalizePath
  let res := STANDARD_DIRECTORIES.foldl (structureStep pathSet) ([], [])
  { missingDirs := res.1
    presentDirs := res.2
    score := calculateStructureScore res.1 res.2 }

/-- The community registry's path column. -/
def COMMUNITY_PATHS : List String := STANDARD_FILES.map FileCheck.path

/-- The structure registry's path column. -/
def STRUCTURE_PATHS : List String := STANDARD_DIRECTORIES.map DirectoryCheck.path

/-- The community `maxPoints` is the constant 46 (license class counted once). -/
lemma communityMaxAcc_snd : communityMaxAcc.2 = 46 := rfl

/-- The community score is the rounded ratio over the constant 46. -/
lemma calculateCommunityScore_eq (missing : List FileCheck) (present : List String) :
    calculateCommunityScore missing present = (200 * communityEarnedPoints present + 46) / 92 :=
  rfl

/-- The structure `maxPoints` is the constant 42. -/
lemma structureScoreAcc_fst (present : List String) : (structureScoreAcc present).1 = 42 := rfl

/-- The structure score is the rounded ratio over the constant 42. -/
lemma calculateStructureScore_eq (missing : List DirectoryCheck) (present : List String) :
    calculateStructureScore missing present = (200 * (structureScoreAcc present).2 + 42) / 84 :=
  rfl

/-- Unfolding equation for `structureStep`. -/
lemma structureStep_eq (ps : List String) (acc : List DirectoryCheck × List String)
    (dir : DirectoryCheck) :
    structureStep ps acc dir =
      if ps.contains (normalizePath dir.path) then (acc.1, acc.2 ++ [dir.path])
      else (acc.1 ++ [dir], acc.2) :=
  rfl

/-- Unfolding equation for `communityStep`. -/
lemma communityStep_eq (fs : List String) (hl : Bool) (acc : List FileCheck × List String)
    (file : FileCheck) :
    communityStep fs hl acc file =
      if file.path == "LICENSE.txt" && hl then acc
      else if file.path == "LICENSE" && fs.contains "license.txt" then acc
      else if fs.contains (normalizeFilePath file.path) then (acc.1, acc.2 ++ [file.path])
      else (acc.1 ++ [file], acc.2) :=
  rfl

/-- The registry loop of `analyzeStructure` only appends: `missing` grows by
a subsequence of the remaining registry, `present` by the matching
subsequence of its path column. -/
lemma structureStep_foldl (ps : List String) (regs : List DirectoryCheck) :
    ∀ (m : List DirectoryCheck) (pres : List String),
    ∃ s1 s2, regs.foldl (structureStep ps) (m, pres) = (m ++ s1, pres ++ s2) ∧
      s1.Sublist regs ∧ s2.Sublist (regs.map DirectoryCheck.path) := by
  induction regs with
  | nil =>
    intro m pres
    exact ⟨[], [], by simp, List.nil_sublist _, List.nil_sublist _⟩
  | cons d t ih =>
    intro m pres
    rw [List.foldl_cons]
    cases h : ps.contains (normalizePath d.path) with
    | true =>
      obtain ⟨s1, s2, heq, hs1, hs2⟩ := ih m (pres ++ [d.path])
      refine ⟨s1, d.path :: s2, ?_, List.Sublist.cons d hs1, ?_⟩
      · simp only [structureStep_eq, h, if_true]
        rw [heq]
        simp
      · simpa using List.Sublist.cons₂ d.path hs2
    | false =>
      obtain ⟨s1, s2, heq, hs1, hs2⟩ := ih (m ++ [d]) pres
      refine ⟨d :: s1, s2, ?_, List.Sublist.cons₂ d hs1, ?_⟩
      · simp only [structureStep_eq, h]
        simp only [Bool.false_eq_true, if_false]
        rw [heq]
        simp
      · simpa using List.Sublist.cons d.path hs2

/-- The registry loop of `analyzeCommunityStandards` only appends:
`missing` grows by a subsequence of the remaining registry, `present` by a
subsequence of its path column. -/
lemma communityStep_foldl (fs : List String) (hl : Bool) (regs : List FileCheck) :
    ∀ (m : List FileCheck) (pres : List String),
    ∃ s1 s2, regs.foldl (communityStep fs hl) (m, pres) = (m ++ s1, pres ++ s2) ∧
      s1.Sublist regs ∧ s2.Sublist (regs.map FileCheck.path) := by
  induction regs with
  | nil =>
    intro m pres
    exact ⟨[], [], by simp, List.nil_sublist _, List.nil_sublist _⟩
  | cons f t ih =>
    intro m pres
    rw [List.foldl_cons]
    cases h1 : (f.path == "LICENSE.txt" && hl) with
    | true =>
      obtain ⟨s1, s2, heq, hs1, hs2⟩ := ih m pres
      refine ⟨s1, s2, ?_, List.Sublist.cons f hs1, ?_⟩
      · simp only [communityStep_eq, h1, if_true]
        exact heq
      · simpa using List.Sublist.cons f.path hs2
    | false =>
      cases h2 : (f.path == "LICENSE" && fs.contains "license.txt") with
      | true =>
        obtain ⟨s1, s2, heq, hs1, hs2⟩ := ih m pres
        refine ⟨s1, s2, ?_, List.Sublist.cons f hs1, ?_⟩
        · simp only [communityStep_eq, h1, h2, Bool.false_eq_true, if_false, if_true]
          exact heq
        · simpa using List.Sublist.cons f.path hs2
      | false =>
        cases h3 : fs.contains (normalizeFilePath f.path) with
        | true =>
          obtain ⟨s1, s2, heq, hs1, hs2⟩ := ih m (pres ++ [f.path])
          refine ⟨s1, f.path :: s2, ?_, List.Sublist.cons f hs1, ?_⟩
          · simp only [communityStep_eq, h1, h2, h3, Bool.false_eq_true, if_false, if_true]
            rw [heq]
            simp
          · simpa using List.Sublist.cons₂ f.path hs2
        | false =>
          obtain ⟨s1, s2, heq, hs1, hs2⟩ := ih (m ++ [f]) pres
          refine ⟨f :: s1, s2, ?_, List.Sublist.cons₂ f hs1, ?_⟩
          · simp only [communityStep_eq, h1, h2, h3, Bool.false_eq_true, if_false]
            rw [heq]
            simp
          · simpa using List.Sublist.cons f.path hs2

set_option maxRecDepth 4000 in
/-- Over every subsequence of the structure registry's path column the
earned points stay within the maximum of 42. -/
lemma structEarned_all : ∀ q ∈ STRUCTURE_PATHS.sublists, (structureScoreAcc q).2 ≤ 42 := by
  decide

set_option maxRecDepth 8000 in
/-- Over every subsequence of the community registry's path column the
earned points stay within the deduplicated maximum of 46 (when both license
aliases are present, both license rows see the other alias as
`alreadyCounted` and earn nothing). -/
lemma commEarned_all : ∀ q ∈ COMMUNITY_PATHS.sublists, communityEarnedPoints q ≤ 46 := by
  decide

/-- The community registry rows after the two license rows. -/
def restCommunityFiles : List FileCheck := STANDARD_FILES.drop 2

/-- When the normalized input contains `license.txt`, the `LICENSE` row is
skipped (`community.ts` lines 79–82). -/
lemma lic_row_skip (fs : List String) (hl : Bool) (h : fs.contains "license.txt" = true)
    (acc : List FileCheck × List String) :
    communityStep fs hl acc ⟨"LICENSE", "License terms", .required⟩ = acc := by
  simp only [communityStep_eq, h]
  simp

/-- When `hasLicense` holds, the `LICENSE.txt` row is skipped
(`community.ts` lines 75–78). -/
lemma lictxt_row_skip (fs : List String) (hl : Bool) (hh : hl = true)
    (acc : List FileCheck × List String) :
    communityStep fs hl acc ⟨"LICENSE.txt", "License terms (alternative)", .required⟩ = acc := by
  subst hh
  rfl

/-- Over rows that are not license rows, every step of the community loop
files the row into exactly one of `missing` / `present`. -/
lemma communityStep_foldl_length (fs : List String) (hl : Bool) :
    ∀ (regs : List FileCheck),
    (∀ f ∈ regs, (f.path == "LICENSE.txt") = false ∧ (f.path == "LICENSE") = false) →
    ∀ (m : List FileCheck) (pres : List String),
    (regs.foldl (communityStep fs hl) (m, pres)).1.length +
      (regs.foldl (communityStep fs hl) (m, pres)).2.length =
      m.length + pres.length + regs.length := by
  intro regs
  induction regs with
  | nil => intro _ m pres; simp
  | cons f t ih =>
    intro hregs m pres
    obtain ⟨hf1, hf2⟩ := hregs f (by simp)
    have ht : ∀ g ∈ t, (g.path == "LICENSE.txt") = false ∧ (g.path == "LICENSE") = false :=
      fun g hg => hregs g (by simp [hg])
    rw [List.foldl_cons]
    cases h3 : fs.contains (normalizeFilePath f.path) with
    | true =>
      simp only [communityStep_eq, hf1, hf2, Bool.false_and, Bool.false_eq_true, if_false,
        h3, if_true]
      have := ih ht m (pres ++ [f.path])
      simp only [List.length_append, List.length_cons, List.length_nil] at this ⊢
      omega
    | false =>
      simp only [communityStep_eq, hf1, hf2, Bool.false_and, Bool.false_eq_true, if_false, h3]
      have := ih ht (m ++ [f]) pres
      simp only [List.length_append, List.length_cons, List.length_nil] at this ⊢
      omega

/-- C1: the spec requires `analyzeCommunityStandards(["README.md","LICENSE"])`
and `analyzeCommunityStandards(["README.md","LICENSE.txt"])` to score within
one rounding unit of each other; the code scores them 43 and 22 — when only
`LICENSE.txt` is present both license registry rows are skipped, so the
license weight is never earned.  This contradicts the repository's own test
(`community.test.ts`: the two scores must differ by less than 10). -/
theorem license_alias_score_divergence :
    (analyzeCommunityStandards ["README.md", "LICENSE"]).score = 43 ∧
    (analyzeCommunityStandards ["README.md", "LICENSE.txt"]).score = 22 ∧
    ¬((analyzeCommunityStandards ["README.md", "LICENSE"]).score -
      (analyzeCommunityStandards ["README.md", "LICENSE.txt"]).score ≤ 1) := by
  decide

/-- C2: `maxPoints` does count the license class once (46 in total), but
with only `LICENSE.txt` in the input the license weight is NOT earned: both
license rows are skipped, `presentFiles` stays empty and the score is 0
instead of the expected 22. -/
theorem license_txt_alone_score_zero :
    communityMaxAcc.2 = 46 ∧
    (analyzeCommunityStandards ["LICENSE.txt"]).presentFiles = [] ∧
    (analyzeCommunityStandards ["LICENSE.txt"]).missingFiles.length = 7 ∧
    (analyzeCommunityStandards ["LICENSE.txt"]).score = 0 := by
  decide

/-- C3: the spec (and the repository's own test) require RSR compliance to
hold with `LICENSE.txt` standing in for `LICENSE`; the code returns `false`
on exactly the input of that test, because no license alias ever reaches
`presentFiles` when `license.txt` is in the normalized input. -/
theorem rsr_compliance_false_despite_license_txt :
    checkRSRCompliance (analyzeCommunityStandards
      ["README.md", "LICENSE.txt", "SECURITY.md", "CONTRIBUTING.md", "CODE_OF_CONDUCT.md"])
      = false := by
  decide

/-- C4: adding the required registry item `LICENSE.txt` (not present in the
input `["LICENSE"]`) drops the community score from 22 to 0, violating the
spec's monotonicity property; the cause is the same double-skip of the
license rows. -/
theorem community_score_drops_on_adding_license_txt :
    (analyzeCommunityStandards ["LICENSE"]).score = 22 ∧
    (analyzeCommunityStandards ["LICENSE", "LICENSE.txt"]).score = 0 := by
  decide

/-- C5 (counterexample): the sum of the priority weights over the structure
registry is not 38 as the spec computes. -/
theorem structure_weight_sum_ne_spec :
    STANDARD_DIRECTORIES.foldl (fun n d => n + getPriorityWeight d.priority) 0 ≠ 38 := by
  decide

/-- C5 (amended): the structure registry holds 2 required, 4 recommended
and 2 optional directory checks, so the weight sum is
2×10 + 4×5 + 2×1 = 42, which is also the `maxPoints` computed by
`calculateStructureScore`. -/
theorem structure_registry_weight_sum :
    STANDARD_DIRECTORIES.foldl (fun n d => n + getPriorityWeight d.priority) 0 = 42 ∧
    (STANDARD_DIRECTORIES.filter (fun d => d.priority == Priority.required)).length = 2 ∧
    (STANDARD_DIRECTORIES.filter (fun d => d.priority == Priority.recommended)).length = 4 ∧
    (STANDARD_DIRECTORIES.filter (fun d => d.priority == Priority.optional)).length = 2 ∧
    (structureScoreAcc []).1 = 42 := by
  decide

/-- C6 (counterexample): the `present` sequences record the registry's
canonical path spelling, not the raw caller-supplied strings. -/
theorem present_not_raw_input :
    (analyzeStructure ["SRC/"]).presentDirs = ["src/"] ∧
    (analyzeStructure ["SRC/"]).presentDirs ≠ ["SRC/"] ∧
    (analyzeCommunityStandards ["readme.md"]).presentFiles = ["README.md"] ∧
    (analyzeCommunityStandards ["readme.md"]).presentFiles ≠ ["readme.md"] := by
  decide

/-- C6 (amended): every entry of the `present` sequence is one of the
registry's canonical path strings (`present.push(file.path)` /
`present.push(dir.path)` push the registry row's path). -/
theorem present_from_registry_paths (l : List String) :
    (∀ p ∈ (analyzeStructure l).presentDirs,
      p ∈ STANDARD_DIRECTORIES.map DirectoryCheck.path) ∧
    (∀ p ∈ (analyzeCommunityStandards l).presentFiles,
      p ∈ STANDARD_FILES.map FileCheck.path) := by
  constructor
  · obtain ⟨s1, s2, heq, hs1, hs2⟩ := structureStep_foldl (l.map normalizePath)
      STANDARD_DIRECTORIES [] []
    intro p hp
    have hpd : (analyzeStructure l).presentDirs = s2 := by
      simp only [analyzeStructure]
      rw [heq]
      simp
    rw [hpd] at hp
    exact hs2.subset hp
  · obtain ⟨s1, s2, heq, hs1, hs2⟩ := communityStep_foldl (l.map normalizeFilePath)
      ((l.map normalizeFilePath).contains "license" ||
        (l.map normalizeFilePath).contains "license.txt" ||
        (l.map normalizeFilePath).contains "license.md") STANDARD_FILES [] []
    intro p hp
    have hpd : (analyzeCommunityStandards l).presentFiles = s2 := by
      simp only [analyzeCommunityStandards]
      rw [heq]
      simp
    rw [hpd] at hp
    exact hs2.subset hp

/-- Witness for `present_from_registry_paths` at concrete inputs. -/
theorem present_from_registry_paths_witness :
    "src/" ∈ STANDARD_DIRECTORIES.map DirectoryCheck.path ∧
    "README.md" ∈ STANDARD_FILES.map FileCheck.path :=
  ⟨(present_from_registry_paths ["SRC/"]).1 "src/" (by decide),
   (present_from_registry_paths ["readme.md"]).2 "README.md" (by decide)⟩

/-- C7: the empty input scores 0 with every registry directory missing;
the full canonical input scores 100 with nothing missing. -/
theorem structure_empty_full_scores :
    (analyzeStructure []).score = 0 ∧
    (analyzeStructure []).presentDirs = [] ∧
    (analyzeStructure []).missingDirs = STANDARD_DIRECTORIES ∧
    (analyzeStructure ["src/", "tests/", "docs/", "examples/", ".gitlab/", ".github/",
      "scripts/", ".well-known/"]).score = 100 ∧
    (analyzeStructure ["src/", "tests/", "docs/", "examples/", ".gitlab/", ".github/",
      "scripts/", ".well-known/"]).missingDirs = [] := by
  decide

/-- C8: matching is case-insensitive and trailing-slash tolerant —
`["SRC/", "Tests/"]` marks the registry items `src/` and `tests/` present
and leaves exactly the other six directories missing. -/
theorem structure_case_insensitive_match :
    (analyzeStructure ["SRC/", "Tests/"]).presentDirs = ["src/", "tests/"] ∧
    (analyzeStructure ["SRC/", "Tests/"]).missingDirs.map DirectoryCheck.path
      = ["docs/", "examples/", ".gitlab/", ".github/", "scripts/", ".well-known/"] := by
  decide

/-- C9: whenever the normalized input contains `license.txt`, both license
registry rows are skipped: no license alias reaches `presentFiles`, neither
license row reaches `missingFiles`, the two output lists cover exactly the
7 remaining registry rows, and `checkRSRCompliance` consequently finds no
license. -/
theorem license_txt_skips_both_license_rows (l : List String)
    (h : (l.map normalizeFilePath).contains "license.txt" = true) :
    (∀ p ∈ (analyzeCommunityStandards l).presentFiles,
        normalizeFilePath p ≠ "license" ∧ normalizeFilePath p ≠ "license.txt" ∧
        normalizeFilePath p ≠ "license.md") ∧
    (∀ f ∈ (analyzeCommunityStandards l).missingFiles,
        f.path ≠ "LICENSE" ∧ f.path ≠ "LICENSE.txt") ∧
    (analyzeCommunityStandards l).missingFiles.length +
      (analyzeCommunityStandards l).presentFiles.length = 7 ∧
    checkRSRCompliance (analyzeCommunityStandards l) = false := by
  have hhl : ((l.map normalizeFilePath).contains "license" ||
      (l.map normalizeFilePath).contains "license.txt" ||
      (l.map normalizeFilePath).contains "license.md") = true := by
    simp only [h, Bool.or_true, Bool.true_or]
  obtain ⟨s1, s2, heq, hs1, hs2⟩ := communityStep_foldl (l.map normalizeFilePath)
    ((l.map normalizeFilePath).contains "license" ||
      (l.map normalizeFilePath).contains "license.txt" ||
      (l.map normalizeFilePath).contains "license.md") restCommunityFiles [] []
  have hlen := communityStep_foldl_length (l.map normalizeFilePath)
    ((l.map normalizeFilePath).contains "license" ||
      (l.map normalizeFilePath).contains "license.txt" ||
      (l.map normalizeFilePath).contains "license.md") restCommunityFiles (by decide) [] []
  have hres : STANDARD_FILES.foldl (communityStep (l.map normalizeFilePath)
      ((l.map normalizeFilePath).contains "license" ||
        (l.map normalizeFilePath).contains "license.txt" ||
        (l.map normalizeFilePath).contains "license.md")) ([], []) = (s1, s2) := by
    rw [show STANDARD_FILES = ⟨"LICENSE", "License terms", .required⟩ ::
        ⟨"LICENSE.txt", "License terms (alternative)", .required⟩ :: restCommunityFiles from rfl]
    rw [List.foldl_cons, lic_row_skip _ _ h, List.foldl_cons, lictxt_row_skip _ _ hhl]
    rw [heq]
    simp
  rw [heq] at hlen
  simp only [List.nil_append] at heq hlen
  have hr : analyzeCommunityStandards l =
      { missingFiles := s1, presentFiles := s2,
        score := calculateCommunityScore s1 s2 } := by
    simp only [analyzeCommunityStandards]
    rw [hres]
  have hrest2 : ∀ q ∈ restCommunityFiles.map FileCheck.path,
      normalizeFilePath q ≠ "license" ∧ normalizeFilePath q ≠ "license.txt" ∧
      normalizeFilePath q ≠ "license.md" := by decide
  have hrest1 : ∀ f ∈ restCommunityFiles,
      f.path ≠ "LICENSE" ∧ f.path ≠ "LICENSE.txt" := by decide
  have hp : ∀ p ∈ s2, normalizeFilePath p ≠ "license" ∧ normalizeFilePath p ≠ "license.txt" ∧
      normalizeFilePath p ≠ "license.md" := fun p hp => hrest2 p (hs2.subset hp)
  rw [hr]
  refine ⟨hp, fun f hf => hrest1 f (hs1.subset hf), ?_, ?_⟩
  · simpa [restCommunityFiles, STANDARD_FILES] using hlen
  · have c1 : (s2.map normalizeFilePath).contains "license" = false := by
      cases hc : (s2.map normalizeFilePath).contains "license" with
      | false => rfl
      | true =>
        exfalso
        obtain ⟨p, hpmem, hpe⟩ := List.mem_map.mp (List.mem_of_elem_eq_true hc)
        exact (hp p hpmem).1 hpe
    have c2 : (s2.map normalizeFilePath).contains "license.txt" = false := by
      cases hc : (s2.map normalizeFilePath).contains "license.txt" with
      | false => rfl
      | true =>
        exfalso
        obtain ⟨p, hpmem, hpe⟩ := List.mem_map.mp (List.mem_of_elem_eq_true hc)
        exact (hp p hpmem).2.1 hpe
    simp only [checkRSRCompliance, c1, c2, Bool.or_false, Bool.and_false, Bool.false_and]

/-- Witness for `license_txt_skips_both_license_rows` at
`["README.md", "LICENSE.txt"]`. -/
theorem license_txt_skips_both_license_rows_witness :
    (["README.md", "LICENSE.txt"].map normalizeFilePath).contains "license.txt" = true ∧
    checkRSRCompliance (analyzeCommunityStandards ["README.md", "LICENSE.txt"]) = false :=
  ⟨by decide,
   (license_txt_skips_both_license_rows ["README.md", "LICENSE.txt"] (by decide)).2.2.2⟩

/-- C10: for every input list, both analyzers return a score (a natural
number in this embedding, hence ≥ 0) of at most 100: the earned points can
never exceed the fixed maxima 42 / 46. -/
theorem analyzer_scores_le_100 (l : List String) :
    (analyzeStructure l).score ≤ 100 ∧ (analyzeCommunityStandards l).score ≤ 100 := by
  constructor
  · obtain ⟨s1, s2, heq, hs1, hs2⟩ := structureStep_foldl (l.map normalizePath)
      STANDARD_DIRECTORIES [] []
    simp only [analyzeStructure]
    rw [calculateStructureScore_eq, heq]
    simp only [List.nil_append]
    have hb : (structureScoreAcc s2).2 ≤ 42 :=
      structEarned_all s2 (List.mem_sublists.mpr hs2)
    have hnum : 200 * (structureScoreAcc s2).2 + 42 ≤ 8442 := by omega
    exact le_trans (Nat.div_le_div_right hnum) (by norm_num)
  · obtain ⟨s1, s2, heq, hs1, hs2⟩ := communityStep_foldl (l.map normalizeFilePath)
      ((l.map normalizeFilePath).contains "license" ||
        (l.map normalizeFilePath).contains "license.txt" ||
        (l.map normalizeFilePath).contains "license.md") STANDARD_FILES [] []
    simp only [analyzeCommunityStandards]
    rw [calculateCommunityScore_eq, heq]
    simp only [List.nil_append]
    have hb : communityEarnedPoints s2 ≤ 46 :=
      commEarned_all s2 (List.mem_sublists.mpr hs2)
    have hnum : 200 * communityEarnedPoints s2 + 46 ≤ 9246 := by omega
    exact le_trans (Nat.div_le_div_right hnum) (by norm_num)
